import Mathlib

/-!
Shallow embedding of the staking-rewards contract
(src/contract/contracts/src/contract.rs) and proofs about it.

Conventions of the embedding:
- i128 values are modelled as `Int`; Rust integer division `/` on i128
  truncates toward zero, modelled by `Int.tdiv`.
- u64 and u32 values are modelled as `Nat`; the truncating cast
  `lock_duration as u32` is modelled explicitly as `% 4294967296`.
- Addresses are modelled as `Nat`; token transfers are recorded as
  explicit `Transfer` values returned next to the new state.
- A panicking operation is modelled as returning `none`; the hosting
  platform rolls back the whole call, so a failed call leaves the state
  unchanged (`step` below).
- Authorization (`require_auth`) is an external oracle and is modelled
  as granted.
- Modelled from the spec: the storage module (`crate::storage`,
  `crate::types::DataKey`) is not under src; per the spec it is a plain
  durable key-value store, read back exactly as written, with absent
  numeric keys defaulting to zero and absent records to `none`.
-/

namespace Staking

/-- Party of a token transfer: the contract itself or a user address. -/
inductive Party where
  | contract : Party
  | user : Nat → Party
deriving DecidableEq, Repr

/-- One external token transfer, recorded instead of executed. -/
structure Transfer where
  token : Nat
  src : Party
  dst : Party
  amount : Int
deriving DecidableEq, Repr

/-- Config from types.rs (shape visible at all use sites in contract.rs). -/
structure Config where
  admin : Nat
  staking_token : Nat
  reward_token : Nat
  reward_rate : Int
deriving DecidableEq, Repr

/-- Tier record: minimum stake and multiplier scaled by 100. -/
structure Tier where
  min_amount : Int
  reward_multiplier : Nat
deriving DecidableEq, Repr

/-- Per-user position record (UserInfo in the source). -/
structure UserInfo where
  amount : Int
  shares : Int
  reward_per_token_paid : Int
  rewards : Int
  lock_start_time : Nat
  lock_duration : Nat
  tier_id : Nat
deriving DecidableEq, Repr

/-- The whole contract storage. -/
structure State where
  config : Option Config
  tiers : List (Nat × Tier)
  users : List (Nat × UserInfo)
  total_shares : Int
  reward_per_token_stored : Int
  last_update_time : Nat
deriving DecidableEq, Repr

/-- Look up a tier by id in the tier store. -/
def lookupTier : List (Nat × Tier) → Nat → Option Tier
  | [], _ => none
  | (k, v) :: rest, a => if k = a then some v else lookupTier rest a

/-- Write a tier (replace first occurrence or append). -/
def writeTier : List (Nat × Tier) → Nat → Tier → List (Nat × Tier)
  | [], a, v => [(a, v)]
  | (k, w) :: rest, a, v =>
    if k = a then (a, v) :: rest else (k, w) :: writeTier rest a v

/-- Look up a user position in the position store. -/
def lookupUser : List (Nat × UserInfo) → Nat → Option UserInfo
  | [], _ => none
  | (k, v) :: rest, a => if k = a then some v else lookupUser rest a

/-- Write a user position (replace first occurrence or append). -/
def writeUser : List (Nat × UserInfo) → Nat → UserInfo → List (Nat × UserInfo)
  | [], a, v => [(a, v)]
  | (k, w) :: rest, a, v =>
    if k = a then (a, v) :: rest else (k, w) :: writeUser rest a v

/-- Sum of the shares of all stored positions. -/
def sumShares (l : List (Nat × UserInfo)) : Int :=
  (l.map (fun p => p.2.shares)).sum

/-- Shares of the position stored for a given address, 0 when absent. -/
def sharesAt (l : List (Nat × UserInfo)) (a : Nat) : Int :=
  match lookupUser l a with
  | some w => w.shares
  | none => 0

/-- The fixed-point scale, `PRECISION` in the source. -/
def PRECISION : Int := 1000000000

/-- The default UserInfo created by `unwrap_or` at a given accumulator value. -/
def defaultInfo (paid : Int) : UserInfo :=
  { amount := 0, shares := 0, reward_per_token_paid := paid, rewards := 0,
    lock_start_time := 0, lock_duration := 0, tier_id := 0 }

/-- Tier resolution with the `unwrap_or(Tier \x7b min_amount: 0, reward_multiplier: 100 \x7d)` fallback. -/
def tierOr (o : Option Tier) : Tier :=
  o.getD { min_amount := 0, reward_multiplier := 100 }

/-- `(lock_duration as u32 / 2_592_000) * 10` from the source: the u64 is
truncated to u32 before the division. -/
def calcBoost (lock_duration : Nat) : Nat :=
  ((lock_duration % 4294967296) / 2592000) * 10

/-- `(amount * total_multiplier as i128) / 100` from the source. -/
def calcShares (amount : Int) (total_multiplier : Nat) : Int :=
  (amount * (total_multiplier : Int)).tdiv 100

/-- The global half of `update_reward`: lines 299 to 308 of contract.rs. -/
def accrueGlobal (t : Nat) (c : Config) (s : State) : State :=
  if s.last_update_time < t then
    { s with
      reward_per_token_stored := s.reward_per_token_stored +
        (if 0 < s.total_shares then
          (((t - s.last_update_time : Nat) : Int) * c.reward_rate * PRECISION).tdiv
            s.total_shares
        else 0),
      last_update_time := t }
  else s

/-- Settlement of one position against the accumulator: the body of
`if let Some(u) = user` in `update_reward`. -/
def settleInfo (rpt : Int) (info : UserInfo) : UserInfo :=
  { info with
    rewards := info.rewards +
      (info.shares * (rpt - info.reward_per_token_paid)).tdiv PRECISION,
    reward_per_token_paid := rpt }

/-- Write the settled position of one user. -/
def settleUser (u : Nat) (s : State) : State :=
  { s with
    users := writeUser s.users u
      (settleInfo s.reward_per_token_stored
        ((lookupUser s.users u).getD (defaultInfo s.reward_per_token_stored))) }

/-- `update_reward` from the source; `none` when no Config is stored
(`read_config` panics). -/
def update_reward (t : Nat) (user : Option Nat) (s : State) : Option State :=
  match s.config with
  | none => none
  | some c =>
    let s1 := accrueGlobal t c s
    match user with
    | none => some s1
    | some u => some (settleUser u s1)

/-- `initialize` from the source (renamed for Lean). -/
def initStaking (t : Nat) (admin staking_token reward_token : Nat)
    (reward_rate : Int) (s : State) : Option (State × List Transfer) :=
  match s.config with
  | some _ => none
  | none =>
    some ({ s with
              config := some { admin := admin, staking_token := staking_token,
                               reward_token := reward_token,
                               reward_rate := reward_rate },
              last_update_time := t }, [])

/-- `set_tier` from the source. -/
def set_tier (tier_id : Nat) (min_amount : Int) (reward_multiplier : Nat)
    (s : State) : Option (State × List Transfer) :=
  match s.config with
  | none => none
  | some _ =>
    let tier : Tier := { min_amount := min_amount, reward_multiplier := reward_multiplier }
    some ({ s with tiers := writeTier s.tiers tier_id tier }, [])

/-- `stake` from the source. -/
def stake (t : Nat) (u : Nat) (amount : Int) (lock_duration : Nat)
    (tier_id : Nat) (s : State) : Option (State × List Transfer) :=
  if amount ≤ 0 then none else
  match update_reward t (some u) s with
  | none => none
  | some s1 =>
    match s1.config with
    | none => none
    | some config =>
      let info0 := (lookupUser s1.users u).getD
        (defaultInfo s1.reward_per_token_stored)
      let info1 := { info0 with amount := info0.amount + amount }
      let tier := tierOr (lookupTier s1.tiers tier_id)
      if info1.amount < tier.min_amount then none else
      let total_multiplier := tier.reward_multiplier + calcBoost lock_duration
      let new_shares := calcShares info1.amount total_multiplier
      let diff_shares := new_shares - info1.shares
      let info2 := { info1 with
        shares := new_shares, tier_id := tier_id,
        lock_start_time := t, lock_duration := lock_duration }
      some ({ s1 with
                users := writeUser s1.users u info2,
                total_shares := s1.total_shares + diff_shares },
            [{ token := config.staking_token, src := Party.user u,
               dst := Party.contract, amount := amount }])

/-- `claim` from the source. -/
def claim (t : Nat) (u : Nat) (compound : Bool) (s : State) :
    Option (State × List Transfer) :=
  match update_reward t (some u) s with
  | none => none
  | some s1 =>
    match lookupUser s1.users u with
    | none => none
    | some info0 =>
      let reward := info0.rewards
      if 0 < reward then
        let info1 := { info0 with rewards := 0 }
        let s2 := { s1 with users := writeUser s1.users u info1 }
        match s2.config with
        | none => none
        | some config =>
          if compound then
            if config.staking_token ≠ config.reward_token then none else
            let tier := tierOr (lookupTier s2.tiers info1.tier_id)
            let total_multiplier :=
              tier.reward_multiplier + calcBoost info1.lock_duration
            let info2 := { info1 with amount := info1.amount + reward }
            let new_shares := calcShares info2.amount total_multiplier
            let diff_shares := new_shares - info2.shares
            let info3 := { info2 with shares := new_shares }
            some ({ s2 with
                      users := writeUser s2.users u info3,
                      total_shares := s2.total_shares + diff_shares }, [])
          else
            some (s2, [{ token := config.reward_token, src := Party.contract,
                         dst := Party.user u, amount := reward }])
      else
        some (s1, [])

/-- `unstake` from the source. -/
def unstake (t : Nat) (u : Nat) (amount : Int) (s : State) :
    Option (State × List Transfer) :=
  if amount ≤ 0 then none else
  match update_reward t (some u) s with
  | none => none
  | some s1 =>
    match lookupUser s1.users u with
    | none => none
    | some info0 =>
      if info0.amount < amount then none else
      let actual_amount :=
        if t < info0.lock_start_time + info0.lock_duration then
          amount - (amount * 20).tdiv 100
        else amount
      match s1.config with
      | none => none
      | some config =>
        let info1 := { info0 with amount := info0.amount - amount }
        let tier := tierOr (lookupTier s1.tiers info1.tier_id)
        let info2 :=
          if (0 : Int) < info1.amount ∧ info1.amount < tier.min_amount then
            { info1 with tier_id := 0 }
          else info1
        let new_tier := tierOr (lookupTier s1.tiers info2.tier_id)
        let total_multiplier :=
          new_tier.reward_multiplier + calcBoost info2.lock_duration
        let new_shares := calcShares info2.amount total_multiplier
        let diff_shares := info2.shares - new_shares
        let info3 := { info2 with shares := new_shares }
        some ({ s1 with
                  users := writeUser s1.users u info3,
                  total_shares := s1.total_shares - diff_shares },
              [{ token := config.staking_token, src := Party.contract,
                 dst := Party.user u, amount := actual_amount }])

/-- `slash` from the source. -/
def slash (t : Nat) (u : Nat) (amount : Int) (s : State) :
    Option (State × List Transfer) :=
  match s.config with
  | none => none
  | some _ =>
    match update_reward t (some u) s with
    | none => none
    | some s1 =>
      match lookupUser s1.users u with
      | none => none
      | some info0 =>
        if info0.amount < amount then none else
        let info1 := { info0 with amount := info0.amount - amount }
        let tier := tierOr (lookupTier s1.tiers info1.tier_id)
        let info2 :=
          if (0 : Int) < info1.amount ∧ info1.amount < tier.min_amount then
            { info1 with tier_id := 0 }
          else info1
        let new_tier := tierOr (lookupTier s1.tiers info2.tier_id)
        let total_multiplier :=
          new_tier.reward_multiplier + calcBoost info2.lock_duration
        let new_shares := calcShares info2.amount total_multiplier
        let diff_shares := info2.shares - new_shares
        let info3 := { info2 with shares := new_shares }
        some ({ s1 with
                  users := writeUser s1.users u info3,
                  total_shares := s1.total_shares - diff_shares }, [])

/-- The `empty_info` record of the source: the whole position zeroed,
including the settled rewards and the paid accumulator mark. -/
def empty_info : UserInfo :=
  { amount := 0, shares := 0, reward_per_token_paid := 0, rewards := 0,
    lock_start_time := 0, lock_duration := 0, tier_id := 0 }

/-- `emergency_withdraw` from the source: no accrual, 20 percent penalty,
position reset to the all-zero record. -/
def emergency_withdraw (u : Nat) (s : State) : Option (State × List Transfer) :=
  match lookupUser s.users u with
  | none => none
  | some info =>
    if info.amount = 0 then none else
    let penalty := (info.amount * 20).tdiv 100
    let actual_amount := info.amount - penalty
    match s.config with
    | none => none
    | some config =>
      some ({ s with
                total_shares := s.total_shares - info.shares,
                users := writeUser s.users u empty_info },
            [{ token := config.staking_token, src := Party.contract,
               dst := Party.user u, amount := actual_amount }])

/-- One contract invocation. -/
inductive Op where
  | init (admin staking_token reward_token : Nat) (reward_rate : Int)
  | setTier (tier_id : Nat) (min_amount : Int) (reward_multiplier : Nat)
  | stakeOp (u : Nat) (amount : Int) (lock_duration : Nat) (tier_id : Nat)
  | claimOp (u : Nat) (compound : Bool)
  | unstakeOp (u : Nat) (amount : Int)
  | slashOp (u : Nat) (amount : Int)
  | emergencyOp (u : Nat)
deriving DecidableEq, Repr

/-- Run one invocation at a given ledger timestamp. -/
def exec (t : Nat) (op : Op) (s : State) : Option (State × List Transfer) :=
  match op with
  | Op.init a st rt rr => initStaking t a st rt rr s
  | Op.setTier id m r => set_tier id m r s
  | Op.stakeOp u a l id => stake t u a l id s
  | Op.claimOp u cp => claim t u cp s
  | Op.unstakeOp u a => unstake t u a s
  | Op.slashOp u a => slash t u a s
  | Op.emergencyOp u => emergency_withdraw u s

/-- Platform semantics of one call: a failed call is rolled back whole, so
the state is unchanged. -/
def step (s : State) (x : Nat × Op) : State :=
  match exec x.1 x.2 s with
  | none => s
  | some (s1, _) => s1

/-- Run a sequence of timestamped invocations. -/
def runOps (s : State) (ops : List (Nat × Op)) : State :=
  ops.foldl step s

/-- Modelled from the spec: the freshly deployed contract has an empty
store, so every numeric key reads 0 and no record exists. -/
def initialState : State :=
  { config := none, tiers := [], users := [], total_shares := 0,
    reward_per_token_stored := 0, last_update_time := 0 }

/-- The bookkeeping invariant: stored total_shares is the sum of the shares
of all positions. -/
def Inv (s : State) : Prop :=
  s.total_shares = sumShares s.users

theorem lookupUser_writeUser_self (l : List (Nat × UserInfo)) (a : Nat)
    (v : UserInfo) : lookupUser (writeUser l a v) a = some v := by
  induction l with
  | nil => simp [writeUser, lookupUser]
  | cons hd tl ih =>
    obtain ⟨k, w⟩ := hd
    by_cases hk : k = a
    · simp [writeUser, hk, lookupUser]
    · simp [writeUser, hk, lookupUser, ih]

theorem writeUser_lookup_self (l : List (Nat × UserInfo)) (a : Nat)
    (v : UserInfo) (h : lookupUser l a = some v) : writeUser l a v = l := by
  induction l with
  | nil => simp [lookupUser] at h
  | cons hd tl ih =>
    obtain ⟨k, w⟩ := hd
    by_cases hk : k = a
    · subst hk
      simp [lookupUser] at h
      simp [writeUser, h]
    · simp [lookupUser, hk] at h
      simp [writeUser, hk, ih h]

theorem sumShares_cons (k : Nat) (w : UserInfo) (tl : List (Nat × UserInfo)) :
    sumShares ((k, w) :: tl) = w.shares + sumShares tl := by
  simp [sumShares]

theorem sharesAt_cons (k : Nat) (w : UserInfo) (tl : List (Nat × UserInfo))
    (a : Nat) : sharesAt ((k, w) :: tl) a =
      if k = a then w.shares else sharesAt tl a := by
  by_cases hk : k = a <;> simp [sharesAt, lookupUser, hk]

theorem sharesAt_eq_of_lookup (l : List (Nat × UserInfo)) (a : Nat)
    (v : UserInfo) (h : lookupUser l a = some v) : sharesAt l a = v.shares := by
  simp [sharesAt, h]

theorem sumShares_writeUser (l : List (Nat × UserInfo)) (a : Nat)
    (v : UserInfo) :
    sumShares (writeUser l a v) = sumShares l + v.shares - sharesAt l a := by
  induction l with
  | nil => simp [writeUser, sumShares, sharesAt, lookupUser]
  | cons hd tl ih =>
    obtain ⟨k, w⟩ := hd
    by_cases hk : k = a
    · simp [writeUser, hk, sumShares_cons, sharesAt_cons]
      ring
    · simp [writeUser, hk, sumShares_cons, sharesAt_cons, ih]
      ring

theorem settleInfo_amount (r : Int) (i : UserInfo) :
    (settleInfo r i).amount = i.amount := rfl

theorem settleInfo_shares (r : Int) (i : UserInfo) :
    (settleInfo r i).shares = i.shares := rfl

theorem settleInfo_lock_start (r : Int) (i : UserInfo) :
    (settleInfo r i).lock_start_time = i.lock_start_time := rfl

theorem settleInfo_lock_duration (r : Int) (i : UserInfo) :
    (settleInfo r i).lock_duration = i.lock_duration := rfl

theorem settleInfo_tier_id (r : Int) (i : UserInfo) :
    (settleInfo r i).tier_id = i.tier_id := rfl

theorem settleInfo_paid (r : Int) (i : UserInfo) :
    (settleInfo r i).reward_per_token_paid = r := rfl

theorem accrueGlobal_users (t : Nat) (c : Config) (s : State) :
    (accrueGlobal t c s).users = s.users := by
  unfold accrueGlobal; split <;> rfl

theorem accrueGlobal_config (t : Nat) (c : Config) (s : State) :
    (accrueGlobal t c s).config = s.config := by
  unfold accrueGlobal; split <;> rfl

theorem accrueGlobal_tiers (t : Nat) (c : Config) (s : State) :
    (accrueGlobal t c s).tiers = s.tiers := by
  unfold accrueGlobal; split <;> rfl

theorem accrueGlobal_total (t : Nat) (c : Config) (s : State) :
    (accrueGlobal t c s).total_shares = s.total_shares := by
  unfold accrueGlobal; split <;> rfl

theorem accrueGlobal_rpt (t : Nat) (c : Config) (s : State) :
    (accrueGlobal t c s).reward_per_token_stored =
      s.reward_per_token_stored +
        (if s.last_update_time < t ∧ 0 < s.total_shares then
          (((t - s.last_update_time : Nat) : Int) * c.reward_rate *
            PRECISION).tdiv s.total_shares
        else 0) := by
  unfold accrueGlobal
  by_cases h1 : s.last_update_time < t
  · by_cases h2 : 0 < s.total_shares <;> simp [h1, h2]
  · simp [h1]

theorem accrueGlobal_last (t : Nat) (c : Config) (s : State)
    (h : s.last_update_time ≤ t) : (accrueGlobal t c s).last_update_time = t := by
  unfold accrueGlobal
  by_cases h1 : s.last_update_time < t
  · simp [h1]
  · simp [h1]
    omega

theorem accrueGlobal_rpt_le (t : Nat) (c : Config) (s : State)
    (hr : 0 ≤ c.reward_rate) :
    s.reward_per_token_stored ≤ (accrueGlobal t c s).reward_per_token_stored := by
  rw [accrueGlobal_rpt]
  split
  · rename_i hcond
    have hnum : (0 : Int) ≤ ((t - s.last_update_time : Nat) : Int) *
        c.reward_rate * PRECISION := by
      have h1 : (0 : Int) ≤ ((t - s.last_update_time : Nat) : Int) :=
        Int.natCast_nonneg _
      have h2 : (0 : Int) ≤ PRECISION := by norm_num [PRECISION]
      exact mul_nonneg (mul_nonneg h1 hr) h2
    have := Int.tdiv_nonneg hnum (le_of_lt hcond.2)
    omega
  · omega

theorem sumShares_settleUser (u : Nat) (s : State) :
    sumShares (settleUser u s).users = sumShares s.users := by
  unfold settleUser
  simp only [sumShares_writeUser]
  cases h : lookupUser s.users u with
  | none => simp [h, sharesAt, defaultInfo, settleInfo]
  | some w => simp [h, sharesAt_eq_of_lookup _ _ _ h, settleInfo]

theorem settleUser_lookup (u : Nat) (s : State) :
    lookupUser (settleUser u s).users u =
      some (settleInfo s.reward_per_token_stored
        ((lookupUser s.users u).getD (defaultInfo s.reward_per_token_stored))) :=
  lookupUser_writeUser_self _ _ _

theorem update_reward_eq (t : Nat) (u : Nat) (s : State) (c : Config)
    (hc : s.config = some c) :
    update_reward t (some u) s = some (settleUser u (accrueGlobal t c s)) := by
  simp [update_reward, hc]

theorem update_reward_fields (t : Nat) (uo : Option Nat) (s s1 : State)
    (h : update_reward t uo s = some s1) :
    s1.total_shares = s.total_shares ∧ sumShares s1.users = sumShares s.users ∧
      s1.config = s.config ∧ s1.tiers = s.tiers := by
  cases hc : s.config with
  | none => simp [update_reward, hc] at h
  | some c =>
    cases uo with
    | none =>
      simp [update_reward, hc] at h
      subst h
      exact ⟨accrueGlobal_total t c s, by rw [accrueGlobal_users],
        (accrueGlobal_config t c s).trans hc, accrueGlobal_tiers t c s⟩
    | some u =>
      rw [update_reward_eq t u s c hc] at h
      have h2 := Option.some.inj h
      subst h2
      refine ⟨accrueGlobal_total t c s, ?_,
        (accrueGlobal_config t c s).trans hc, accrueGlobal_tiers t c s⟩
      rw [sumShares_settleUser, accrueGlobal_users]

theorem update_reward_rpt_le (t : Nat) (uo : Option Nat) (s s1 : State)
    (c : Config) (hc : s.config = some c) (hr : 0 ≤ c.reward_rate)
    (h : update_reward t uo s = some s1) :
    s.reward_per_token_stored ≤ s1.reward_per_token_stored := by
  cases uo with
  | none =>
    simp [update_reward, hc] at h
    subst h
    exact accrueGlobal_rpt_le t c s hr
  | some u =>
    rw [update_reward_eq t u s c hc] at h
    have h2 := Option.some.inj h
    subst h2
    exact accrueGlobal_rpt_le t c s hr

theorem update_reward_user_lookup (t : Nat) (u : Nat) (s s1 : State)
    (c : Config) (info : UserInfo) (hc : s.config = some c)
    (hu : lookupUser s.users u = some info)
    (h : update_reward t (some u) s = some s1) :
    lookupUser s1.users u =
      some (settleInfo s1.reward_per_token_stored info) := by
  rw [update_reward_eq t u s c hc] at h
  have h2 := Option.some.inj h
  subst h2
  rw [settleUser_lookup]
  rw [accrueGlobal_users, hu]
  rfl

theorem getD_defaultInfo_shares (l : List (Nat × UserInfo)) (a : Nat) (r : Int) :
    ((lookupUser l a).getD (defaultInfo r)).shares = sharesAt l a := by
  cases hl : lookupUser l a <;> simp [hl, sharesAt, defaultInfo]

theorem stake_inv (t u : Nat) (amount : Int) (lock tid : Nat) (s s1 : State)
    (tf : List Transfer) (h : stake t u amount lock tid s = some (s1, tf))
    (hinv : Inv s) : Inv s1 := by
  simp only [stake] at h
  split at h
  · exact Option.noConfusion h
  split at h
  · exact Option.noConfusion h
  rename_i s2 hur
  split at h
  · exact Option.noConfusion h
  rename_i config hc2
  split at h
  · exact Option.noConfusion h
  rw [Option.some.injEq, Prod.mk.injEq] at h
  obtain ⟨h1, -⟩ := h
  subst h1
  obtain ⟨ht, hs, -, -⟩ := update_reward_fields t (some u) s s2 hur
  unfold Inv at hinv ⊢
  simp only [sumShares_writeUser, getD_defaultInfo_shares]
  omega

theorem claim_inv (t u : Nat) (cp : Bool) (s s1 : State)
    (tf : List Transfer) (h : claim t u cp s = some (s1, tf))
    (hinv : Inv s) : Inv s1 := by
  simp only [claim] at h
  split at h
  · exact Option.noConfusion h
  rename_i s2 hur
  obtain ⟨ht, hs, -, -⟩ := update_reward_fields t (some u) s s2 hur
  split at h
  · exact Option.noConfusion h
  rename_i info0 hinfo
  have hsh0 : sharesAt s2.users u = info0.shares :=
    sharesAt_eq_of_lookup _ _ _ hinfo
  split at h
  · -- reward > 0
    split at h
    · exact Option.noConfusion h
    rename_i config hc2
    split at h
    · -- compound
      split at h
      · exact Option.noConfusion h
      rw [Option.some.injEq, Prod.mk.injEq] at h
      obtain ⟨h1, -⟩ := h
      subst h1
      unfold Inv at hinv ⊢
      simp only [sumShares_writeUser, sharesAt_eq_of_lookup _ _ _
        (lookupUser_writeUser_self s2.users u _)]
      simp only [sumShares_writeUser, hsh0]
      omega
    · -- non-compound
      rw [Option.some.injEq, Prod.mk.injEq] at h
      obtain ⟨h1, -⟩ := h
      subst h1
      unfold Inv at hinv ⊢
      simp only [sumShares_writeUser, hsh0]
      omega
  · rw [Option.some.injEq, Prod.mk.injEq] at h
    obtain ⟨h1, -⟩ := h
    subst h1
    unfold Inv at hinv ⊢
    omega

theorem unstake_inv (t u : Nat) (amount : Int) (s s1 : State)
    (tf : List Transfer) (h : unstake t u amount s = some (s1, tf))
    (hinv : Inv s) : Inv s1 := by
  simp only [unstake] at h
  split at h
  · exact Option.noConfusion h
  split at h
  · exact Option.noConfusion h
  rename_i s2 hur
  obtain ⟨ht, hs, -, -⟩ := update_reward_fields t (some u) s s2 hur
  split at h
  · exact Option.noConfusion h
  rename_i info0 hinfo
  have hsh0 : sharesAt s2.users u = info0.shares :=
    sharesAt_eq_of_lookup _ _ _ hinfo
  split at h
  · exact Option.noConfusion h
  split at h
  · exact Option.noConfusion h
  rename_i config hc2
  rw [Option.some.injEq, Prod.mk.injEq] at h
  obtain ⟨h1, -⟩ := h
  subst h1
  unfold Inv at hinv ⊢
  simp only [sumShares_writeUser, hsh0, apply_ite UserInfo.shares]
  simp only [ite_self]
  omega

theorem slash_inv (t u : Nat) (amount : Int) (s s1 : State)
    (tf : List Transfer) (h : slash t u amount s = some (s1, tf))
    (hinv : Inv s) : Inv s1 := by
  simp only [slash] at h
  split at h
  · exact Option.noConfusion h
  split at h
  · exact Option.noConfusion h
  rename_i s2 hur
  obtain ⟨ht, hs, -, -⟩ := update_reward_fields t (some u) s s2 hur
  split at h
  · exact Option.noConfusion h
  rename_i info0 hinfo
  have hsh0 : sharesAt s2.users u = info0.shares :=
    sharesAt_eq_of_lookup _ _ _ hinfo
  split at h
  · exact Option.noConfusion h
  rw [Option.some.injEq, Prod.mk.injEq] at h
  obtain ⟨h1, -⟩ := h
  subst h1
  unfold Inv at hinv ⊢
  simp only [sumShares_writeUser, hsh0, apply_ite UserInfo.shares]
  simp only [ite_self]
  omega

theorem emergency_inv (u : Nat) (s s1 : State) (tf : List Transfer)
    (h : emergency_withdraw u s = some (s1, tf)) (hinv : Inv s) : Inv s1 := by
  simp only [emergency_withdraw] at h
  split at h
  · exact Option.noConfusion h
  rename_i info0 hinfo
  have hsh0 : sharesAt s.users u = info0.shares :=
    sharesAt_eq_of_lookup _ _ _ hinfo
  split at h
  · exact Option.noConfusion h
  split at h
  · exact Option.noConfusion h
  rw [Option.some.injEq, Prod.mk.injEq] at h
  obtain ⟨h1, -⟩ := h
  subst h1
  unfold Inv at hinv ⊢
  simp only [sumShares_writeUser, hsh0, empty_info]
  omega

theorem exec_inv (t : Nat) (op : Op) (s s1 : State) (tf : List Transfer)
    (h : exec t op s = some (s1, tf)) (hinv : Inv s) : Inv s1 := by
  cases op with
  | init a st rt rr =>
    simp only [exec, initStaking] at h
    split at h
    · exact Option.noConfusion h
    rw [Option.some.injEq, Prod.mk.injEq] at h
    obtain ⟨h1, -⟩ := h
    subst h1
    exact hinv
  | setTier id m r =>
    simp only [exec, set_tier] at h
    split at h
    · exact Option.noConfusion h
    rw [Option.some.injEq, Prod.mk.injEq] at h
    obtain ⟨h1, -⟩ := h
    subst h1
    exact hinv
  | stakeOp u a l id => exact stake_inv t u a l id s s1 tf h hinv
  | claimOp u cp => exact claim_inv t u cp s s1 tf h hinv
  | unstakeOp u a => exact unstake_inv t u a s s1 tf h hinv
  | slashOp u a => exact slash_inv t u a s s1 tf h hinv
  | emergencyOp u => exact emergency_inv u s s1 tf h hinv

theorem step_inv (s : State) (x : Nat × Op) (hinv : Inv s) : Inv (step s x) := by
  unfold step
  split
  · exact hinv
  rename_i s1 tf hp
  exact exec_inv x.1 x.2 s s1 tf hp hinv

theorem runOps_inv (ops : List (Nat × Op)) (s : State) (hinv : Inv s) :
    Inv (runOps s ops) := by
  induction ops generalizing s with
  | nil => exact hinv
  | cons x rest ih => exact ih (step s x) (step_inv s x hinv)

theorem settleUser_tiers (u : Nat) (s : State) : (settleUser u s).tiers = s.tiers :=
  rfl

theorem settleUser_config (u : Nat) (s : State) :
    (settleUser u s).config = s.config := rfl

theorem settleUser_total (u : Nat) (s : State) :
    (settleUser u s).total_shares = s.total_shares := rfl

theorem settleUser_rpt (u : Nat) (s : State) :
    (settleUser u s).reward_per_token_stored = s.reward_per_token_stored := rfl

theorem settleUser_last (u : Nat) (s : State) :
    (settleUser u s).last_update_time = s.last_update_time := rfl

/-- Amount of the stored position of an address, 0 when absent. -/
def amountAt (l : List (Nat × UserInfo)) (a : Nat) : Int :=
  match lookupUser l a with
  | some w => w.amount
  | none => 0

theorem getD_defaultInfo_amount (l : List (Nat × UserInfo)) (a : Nat) (r : Int) :
    ((lookupUser l a).getD (defaultInfo r)).amount = amountAt l a := by
  cases hl : lookupUser l a <;> simp [hl, amountAt, defaultInfo]

theorem PRECISION_pos : (0 : Int) < PRECISION := by norm_num [PRECISION]

/-- A shared concrete configuration for witnesses. -/
def cfg0 : Config :=
  { admin := 1, staking_token := 2, reward_token := 2, reward_rate := 10 }

/-- A shared concrete tier for witnesses. -/
def tier1 : Tier := { min_amount := 1000, reward_multiplier := 150 }

/-- A shared concrete position for witnesses: 2000 staked at tier 1 with a
30-day lock, giving 3200 shares. -/
def info7 : UserInfo :=
  { amount := 2000, shares := 3200, reward_per_token_paid := 0, rewards := 0,
    lock_start_time := 0, lock_duration := 2592000, tier_id := 1 }

/-- A shared concrete state for witnesses, as reached by the scenario of the
specification: initialize with rate 10, set tier 1, stake 2000 at time 0. -/
def S0 : State :=
  { config := some cfg0, tiers := [(1, tier1)], users := [(7, info7)],
    total_shares := 3200, reward_per_token_stored := 0, last_update_time := 0 }

/-- Claim C1: the reward accrual algorithm, run at the start of stake, claim,
unstake and slash, adds floor((t - last_update_time) * reward_rate *
PRECISION / total_shares) to reward_per_share_stored exactly when time has
advanced and total_shares is positive, advances last_update_time to the
current time even when total_shares is 0, and then settles the named
position: rewards grows by floor(shares * (stored - paid) / PRECISION) and
reward_per_share_paid is set to the stored accumulator. -/
theorem update_reward_accrual (s : State) (c : Config) (t u : Nat)
    (info : UserInfo) (hc : s.config = some c) (hrate : 0 ≤ c.reward_rate)
    (hlast : s.last_update_time ≤ t)
    (hu : lookupUser s.users u = some info) (hsh : 0 ≤ info.shares)
    (hpaid : info.reward_per_token_paid ≤ s.reward_per_token_stored) :
    ∃ s1, update_reward t (some u) s = some s1 ∧
      s1.reward_per_token_stored = s.reward_per_token_stored +
        (if s.last_update_time < t ∧ 0 < s.total_shares then
          (((t - s.last_update_time : Nat) : Int) * c.reward_rate * PRECISION) /
            s.total_shares
        else 0) ∧
      s1.last_update_time = t ∧
      lookupUser s1.users u = some
        { info with
          rewards := info.rewards +
            info.shares * (s1.reward_per_token_stored -
              info.reward_per_token_paid) / PRECISION,
          reward_per_token_paid := s1.reward_per_token_stored } := by
  have hnum : (0 : Int) ≤ ((t - s.last_update_time : Nat) : Int) *
      c.reward_rate * PRECISION :=
    mul_nonneg (mul_nonneg (Int.natCast_nonneg _) hrate) (le_of_lt PRECISION_pos)
  refine ⟨settleUser u (accrueGlobal t c s), update_reward_eq t u s c hc,
    ?_, ?_, ?_⟩
  · rw [settleUser_rpt, accrueGlobal_rpt]
    congr 1
    split
    · rename_i hcond
      exact Int.tdiv_eq_ediv hnum (le_of_lt hcond.2)
    · rfl
  · rw [settleUser_last, accrueGlobal_last t c s hlast]
  · rw [update_reward_user_lookup t u s _ c info hc hu
      (update_reward_eq t u s c hc)]
    have hRge : s.reward_per_token_stored ≤
        (settleUser u (accrueGlobal t c s)).reward_per_token_stored := by
      rw [settleUser_rpt]
      exact accrueGlobal_rpt_le t c s hrate
    have hmul : (0 : Int) ≤ info.shares *
        ((settleUser u (accrueGlobal t c s)).reward_per_token_stored -
          info.reward_per_token_paid) :=
      mul_nonneg hsh (by omega)
    have hdiv := Int.tdiv_eq_ediv hmul (le_of_lt PRECISION_pos)
    rw [settleInfo, hdiv]

/-- Claim C3: starting from the freshly deployed contract, after any
sequence of timestamped invocations (failed calls roll back whole), the
stored total_shares equals the sum of the shares of all stored positions. -/
theorem total_shares_eq_sum_positions (ops : List (Nat × Op)) :
    (runOps initialState ops).total_shares =
      sumShares (runOps initialState ops).users :=
  runOps_inv ops initialState rfl

/-- Witness for C1 at the scenario state: at time 10 the accumulator grows
by 31250000 and the position settles 100 pending reward. -/
theorem update_reward_accrual_witness :
    ∃ s1, update_reward 10 (some 7) S0 = some s1 ∧
      s1.reward_per_token_stored = S0.reward_per_token_stored +
        (if S0.last_update_time < 10 ∧ 0 < S0.total_shares then
          (((10 - S0.last_update_time : Nat) : Int) * cfg0.reward_rate *
            PRECISION) / S0.total_shares
        else 0) ∧
      s1.last_update_time = 10 ∧
      lookupUser s1.users 7 = some
        { info7 with
          rewards := info7.rewards +
            info7.shares * (s1.reward_per_token_stored -
              info7.reward_per_token_paid) / PRECISION,
          reward_per_token_paid := s1.reward_per_token_stored } :=
  update_reward_accrual S0 cfg0 10 7 info7 rfl (by decide) (by decide)
    (by decide) (by decide) (by decide)

/-- The boost formula as the spec words it, for comparison with `calcBoost`:
floor(lock_duration / 2592000) * 10 on the full u64, no truncation. -/
def boostSpec (lock_duration : Nat) : Nat := lock_duration / 2592000 * 10

/-- Counterexample to C2 as stated: at lock_duration = 2^32 (a valid u64)
the code truncates the duration to u32 before dividing, so the boost is 0
rather than 16570 and the resulting shares differ. -/
theorem boost_truncation_cex :
    calcBoost 4294967296 = 0 ∧ boostSpec 4294967296 = 16570 ∧
      calcShares 100 (100 + calcBoost 4294967296) ≠
        calcShares 100 (100 + boostSpec 4294967296) := by decide

/-- Claim C2 amended: the share computation used by stake, compounding
claim, unstake and slash first truncates lock_duration to u32, so
boost = floor((lock_duration mod 2^32) / 2_592_000) * 10, agreeing with the
original claim exactly when lock_duration < 2^32; the effective multiplier
is tier.reward_multiplier + boost and, for nonnegative amounts,
shares = floor(amount * effective_multiplier / 100). -/
theorem shares_computation (amount : Int) (mult lock : Nat) (ha : 0 ≤ amount) :
    calcBoost lock = lock % 2 ^ 32 / 2592000 * 10 ∧
      (lock < 2 ^ 32 → calcBoost lock = boostSpec lock) ∧
      calcShares amount (mult + calcBoost lock) =
        amount * ((mult + calcBoost lock : Nat) : Int) / 100 := by
  refine ⟨by norm_num [calcBoost], ?_, ?_⟩
  · intro hl
    unfold calcBoost boostSpec
    rw [Nat.mod_eq_of_lt (by norm_num at hl ⊢; exact hl)]
  · exact Int.tdiv_eq_ediv (mul_nonneg ha (Int.natCast_nonneg _)) (by norm_num)

/-- Witness for the amended C2 at the scenario input: a 30-day lock gives
boost 10 and 2000 staked at multiplier 150 gives 3200 shares. -/
theorem shares_computation_witness :
    calcBoost 2592000 = 2592000 % 2 ^ 32 / 2592000 * 10 ∧
      (2592000 < 2 ^ 32 → calcBoost 2592000 = boostSpec 2592000) ∧
      calcShares 2000 (150 + calcBoost 2592000) =
        2000 * ((150 + calcBoost 2592000 : Nat) : Int) / 100 :=
  shares_computation 2000 150 2592000 (by decide)

theorem amountAt_settleUser (u : Nat) (s : State) :
    amountAt (settleUser u s).users u = amountAt s.users u := by
  unfold settleUser amountAt
  rw [lookupUser_writeUser_self]
  cases hl : lookupUser s.users u <;> simp [hl, settleInfo, defaultInfo]

/-- Claim C6: a stake whose resulting amount is below the resolved tier
minimum fails, and with the platform rollback semantics the call leaves
the whole state (in particular the position and total_shares) unchanged,
even though the tier check happens after accrual and the inbound transfer. -/
theorem stake_tier_violation_rollback (s : State) (c : Config) (t u : Nat)
    (amount : Int) (lock tid : Nat) (hc : s.config = some c)
    (hpos : 0 < amount)
    (hviol : amountAt s.users u + amount <
      (tierOr (lookupTier s.tiers tid)).min_amount) :
    exec t (Op.stakeOp u amount lock tid) s = none ∧
      step s (t, Op.stakeOp u amount lock tid) = s := by
  have hnone : exec t (Op.stakeOp u amount lock tid) s = none := by
    simp only [exec, stake]
    rw [if_neg (not_le.mpr hpos), update_reward_eq t u s c hc]
    split
    · rfl
    rename_i s2 hs2
    have hs2e := Option.some.inj hs2
    subst hs2e
    split
    · rfl
    rename_i config hc2
    rw [if_pos ?hcond]
    case hcond =>
      simp only [getD_defaultInfo_amount, amountAt_settleUser,
        settleUser_tiers, accrueGlobal_tiers]
      have husers : amountAt (accrueGlobal t c s).users u = amountAt s.users u := by
        rw [accrueGlobal_users]
      rw [husers]
      exact hviol
  refine ⟨hnone, ?_⟩
  unfold step
  simp only [hnone]

theorem update_reward_config_some (t : Nat) (uo : Option Nat) (s s1 : State)
    (h : update_reward t uo s = some s1) : ∃ c, s.config = some c := by
  cases hc : s.config with
  | none => simp [update_reward, hc] at h
  | some c => exact ⟨c, rfl⟩

theorem exec_rpt_le (t : Nat) (op : Op) (s s1 : State) (tf : List Transfer)
    (h : exec t op s = some (s1, tf))
    (hr : ∀ c, s.config = some c → 0 ≤ c.reward_rate) :
    s.reward_per_token_stored ≤ s1.reward_per_token_stored := by
  cases op with
  | init a st rt rr =>
    simp only [exec, initStaking] at h
    split at h
    · exact Option.noConfusion h
    rw [Option.some.injEq, Prod.mk.injEq] at h
    obtain ⟨h1, -⟩ := h
    subst h1
    exact le_refl _
  | setTier id m r =>
    simp only [exec, set_tier] at h
    split at h
    · exact Option.noConfusion h
    rw [Option.some.injEq, Prod.mk.injEq] at h
    obtain ⟨h1, -⟩ := h
    subst h1
    exact le_refl _
  | stakeOp u a l id =>
    simp only [exec, stake] at h
    split at h
    · exact Option.noConfusion h
    split at h
    · exact Option.noConfusion h
    rename_i s2 hur
    obtain ⟨c, hc⟩ := update_reward_config_some t (some u) s s2 hur
    have hle := update_reward_rpt_le t (some u) s s2 c hc (hr c hc) hur
    split at h
    · exact Option.noConfusion h
    split at h
    · exact Option.noConfusion h
    rw [Option.some.injEq, Prod.mk.injEq] at h
    obtain ⟨h1, -⟩ := h
    subst h1
    exact hle
  | claimOp u cp =>
    simp only [exec, claim] at h
    split at h
    · exact Option.noConfusion h
    rename_i s2 hur
    obtain ⟨c, hc⟩ := update_reward_config_some t (some u) s s2 hur
    have hle := update_reward_rpt_le t (some u) s s2 c hc (hr c hc) hur
    split at h
    · exact Option.noConfusion h
    split at h
    · split at h
      · exact Option.noConfusion h
      split at h
      · split at h
        · exact Option.noConfusion h
        rw [Option.some.injEq, Prod.mk.injEq] at h
        obtain ⟨h1, -⟩ := h
        subst h1
        exact hle
      · rw [Option.some.injEq, Prod.mk.injEq] at h
        obtain ⟨h1, -⟩ := h
        subst h1
        exact hle
    · rw [Option.some.injEq, Prod.mk.injEq] at h
      obtain ⟨h1, -⟩ := h
      subst h1
      exact hle
  | unstakeOp u a =>
    simp only [exec, unstake] at h
    split at h
    · exact Option.noConfusion h
    split at h
    · exact Option.noConfusion h
    rename_i s2 hur
    obtain ⟨c, hc⟩ := update_reward_config_some t (some u) s s2 hur
    have hle := update_reward_rpt_le t (some u) s s2 c hc (hr c hc) hur
    split at h
    · exact Option.noConfusion h
    split at h
    · exact Option.noConfusion h
    split at h
    · exact Option.noConfusion h
    rw [Option.some.injEq, Prod.mk.injEq] at h
    obtain ⟨h1, -⟩ := h
    subst h1
    exact hle
  | slashOp u a =>
    simp only [exec, slash] at h
    split at h
    · exact Option.noConfusion h
    split at h
    · exact Option.noConfusion h
    rename_i s2 hur
    obtain ⟨c, hc⟩ := update_reward_config_some t (some u) s s2 hur
    have hle := update_reward_rpt_le t (some u) s s2 c hc (hr c hc) hur
    split at h
    · exact Option.noConfusion h
    split at h
    · exact Option.noConfusion h
    rw [Option.some.injEq, Prod.mk.injEq] at h
    obtain ⟨h1, -⟩ := h
    subst h1
    exact hle
  | emergencyOp u =>
    simp only [exec, emergency_withdraw] at h
    split at h
    · exact Option.noConfusion h
    split at h
    · exact Option.noConfusion h
    split at h
    · exact Option.noConfusion h
    rw [Option.some.injEq, Prod.mk.injEq] at h
    obtain ⟨h1, -⟩ := h
    subst h1
    exact le_refl _

/-- Claim C8: whenever the configured reward_rate is nonnegative, no
invocation (successful or rolled back) decreases reward_per_share_stored. -/
theorem reward_per_share_nondecreasing (s : State) (x : Nat × Op)
    (h : ∀ c, s.config = some c → 0 ≤ c.reward_rate) :
    s.reward_per_token_stored ≤ (step s x).reward_per_token_stored := by
  unfold step
  split
  · exact le_refl _
  rename_i s1 tf hp
  exact exec_rpt_le x.1 x.2 s s1 tf hp h

/-- Witness for C8: a concrete stake on the scenario state does not
decrease the accumulator. -/
theorem reward_per_share_nondecreasing_witness :
    S0.reward_per_token_stored ≤
      (step S0 (5, Op.stakeOp 7 100 0 1)).reward_per_token_stored :=
  reward_per_share_nondecreasing S0 (5, Op.stakeOp 7 100 0 1)
    (by intro c hc; cases hc; decide)

/-- Witness for C6: on the scenario state a fresh participant staking 1
token into tier 1 (minimum 1000) fails and changes nothing. -/
theorem stake_tier_violation_rollback_witness :
    exec 0 (Op.stakeOp 9 1 0 1) S0 = none ∧
      step S0 (0, Op.stakeOp 9 1 0 1) = S0 :=
  stake_tier_violation_rollback S0 cfg0 0 9 1 0 1 rfl (by decide) (by decide)

theorem emergency_withdraw_eq (s : State) (c : Config) (u : Nat)
    (info : UserInfo) (hc : s.config = some c)
    (hu : lookupUser s.users u = some info) (hne : info.amount ≠ 0) :
    emergency_withdraw u s = some
      ({ s with total_shares := s.total_shares - info.shares,
                users := writeUser s.users u empty_info },
       [{ token := c.staking_token, src := Party.contract,
          dst := Party.user u,
          amount := info.amount - (info.amount * 20).tdiv 100 }]) := by
  simp only [emergency_withdraw, hu, if_neg hne, hc]

/-- Claim C5: emergency_withdraw fails exactly on a zero-amount position;
otherwise it runs no accrual, removes the position shares from
total_shares, zeroes the whole position (settled rewards included) and
transfers amount - floor(amount * 20 / 100). -/
theorem emergency_withdraw_spec (s : State) (c : Config) (u : Nat)
    (info : UserInfo) (hc : s.config = some c)
    (hu : lookupUser s.users u = some info) (hnn : 0 ≤ info.amount) :
    (info.amount = 0 → emergency_withdraw u s = none) ∧
    (info.amount ≠ 0 →
      emergency_withdraw u s = some
        ({ s with total_shares := s.total_shares - info.shares,
                  users := writeUser s.users u empty_info },
         [{ token := c.staking_token, src := Party.contract,
            dst := Party.user u,
            amount := info.amount - info.amount * 20 / 100 }])) := by
  constructor
  · intro h0
    simp only [emergency_withdraw, hu, h0, if_pos]
  · intro hne
    have htd : (info.amount * 20).tdiv 100 = info.amount * 20 / 100 :=
      Int.tdiv_eq_ediv (mul_nonneg hnn (by norm_num)) (by norm_num)
    rw [emergency_withdraw_eq s c u info hc hu hne, htd]

/-- Witness for C5 at the scenario state: the position of 2000 is zeroed
and 1600 is paid out. -/
theorem emergency_withdraw_spec_witness :
    (info7.amount = 0 → emergency_withdraw 7 S0 = none) ∧
    (info7.amount ≠ 0 →
      emergency_withdraw 7 S0 = some
        ({ S0 with total_shares := S0.total_shares - info7.shares,
                   users := writeUser S0.users 7 empty_info },
         [{ token := cfg0.staking_token, src := Party.contract,
            dst := Party.user 7,
            amount := info7.amount - info7.amount * 20 / 100 }])) :=
  emergency_withdraw_spec S0 cfg0 7 info7 rfl (by decide) (by decide)

/-- Claim C10: after emergency_withdraw the stored position has
reward_per_share_paid 0 (not the current accumulator), yet any later
accrual for that participant settles exactly 0 pending reward, because
the position shares are 0. -/
theorem emergency_reset_no_retroactive (s : State) (c : Config) (u : Nat)
    (info : UserInfo) (hc : s.config = some c)
    (hu : lookupUser s.users u = some info) (hne : info.amount ≠ 0) :
    ∃ s1 tf, emergency_withdraw u s = some (s1, tf) ∧
      lookupUser s1.users u = some empty_info ∧
      s1.reward_per_token_stored = s.reward_per_token_stored ∧
      ∀ t2 s2, update_reward t2 (some u) s1 = some s2 →
        ∃ info2, lookupUser s2.users u = some info2 ∧ info2.rewards = 0 ∧
          info2.shares = 0 ∧
          info2.reward_per_token_paid = s2.reward_per_token_stored := by
  refine ⟨_, _, emergency_withdraw_eq s c u info hc hu hne,
    lookupUser_writeUser_self _ _ _, rfl, ?_⟩
  intro t2 s2 h2
  have hc1 : ({ s with total_shares := s.total_shares - info.shares,
                       users := writeUser s.users u empty_info } : State).config =
      some c := hc
  rw [update_reward_eq t2 u _ c hc1] at h2
  have h2e := Option.some.inj h2
  subst h2e
  rw [settleUser_lookup, accrueGlobal_users]
  refine ⟨_, rfl, ?_, ?_, ?_⟩ <;>
    simp [lookupUser_writeUser_self, empty_info, settleInfo, Int.zero_tdiv,
      settleUser_rpt]

/-- Claim C4: unstake requires a positive amount covered by the position,
runs accrual, pays amount minus the 20 percent penalty exactly when the
lock has not expired, decreases the position amount, demotes tier_id to 0
exactly when the remaining amount is strictly between 0 and the tier
minimum, recomputes shares with the possibly demoted tier and the
unchanged lock_duration, and decreases total_shares by the shares delta. -/
theorem unstake_spec (s : State) (c : Config) (t u : Nat) (amount : Int)
    (info : UserInfo) (hc : s.config = some c)
    (hu : lookupUser s.users u = some info) :
    (amount ≤ 0 → unstake t u amount s = none) ∧
    (0 < amount → info.amount < amount → unstake t u amount s = none) ∧
    (0 < amount → amount ≤ info.amount →
      ∃ s1 info1, unstake t u amount s = some (s1,
          [{ token := c.staking_token, src := Party.contract,
             dst := Party.user u,
             amount := if t < info.lock_start_time + info.lock_duration then
               amount - amount * 20 / 100 else amount }]) ∧
        lookupUser s1.users u = some info1 ∧
        info1.amount = info.amount - amount ∧
        info1.lock_duration = info.lock_duration ∧
        info1.tier_id = (if 0 < info.amount - amount ∧ info.amount - amount <
            (tierOr (lookupTier s.tiers info.tier_id)).min_amount then 0
          else info.tier_id) ∧
        info1.shares = (info.amount - amount) *
          (((tierOr (lookupTier s.tiers info1.tier_id)).reward_multiplier +
            calcBoost info.lock_duration : Nat) : Int) / 100 ∧
        s1.total_shares = s.total_shares - (info.shares - info1.shares)) := by
  refine ⟨?_, ?_, ?_⟩
  · intro ha
    simp only [unstake, if_pos ha]
  · intro hpos hlt
    simp only [unstake, update_reward, hc, if_neg (not_le.mpr hpos),
      settleUser_lookup, accrueGlobal_users, hu, Option.getD_some,
      settleInfo_amount, if_pos hlt]
  · intro hpos hle
    have htd20 : (amount * 20).tdiv 100 = amount * 20 / 100 :=
      Int.tdiv_eq_ediv (by positivity) (by norm_num)
    simp only [unstake, update_reward, hc, if_neg (not_le.mpr hpos),
      settleUser_lookup, accrueGlobal_users, hu, Option.getD_some,
      settleInfo_amount, settleInfo_shares, settleInfo_lock_start,
      settleInfo_lock_duration, settleInfo_tier_id, settleInfo_paid,
      if_neg (not_lt.mpr hle), settleUser_config, accrueGlobal_config,
      settleUser_tiers, accrueGlobal_tiers, settleUser_total,
      accrueGlobal_total, htd20]
    refine ⟨_, _, rfl, lookupUser_writeUser_self _ _ _, ?_, ?_, ?_, ?_, ?_⟩
    · simp [apply_ite UserInfo.amount]
    · simp [apply_ite UserInfo.lock_duration]
    · simp [apply_ite UserInfo.tier_id]
    · simp only [apply_ite UserInfo.tier_id, apply_ite UserInfo.amount,
        apply_ite UserInfo.lock_duration, ite_self, calcShares]
      exact Int.tdiv_eq_ediv (mul_nonneg (by omega) (Int.natCast_nonneg _))
        (by norm_num)
    · simp [apply_ite UserInfo.shares, ite_self]

/-- Witness for C4 at the scenario state advanced to time 20: unstaking
1000 before lock expiry pays 800 and demotes nothing. -/
theorem unstake_spec_witness :
    (1000 ≤ (0 : Int) → unstake 20 7 1000 S0 = none) ∧
    ((0 : Int) < 1000 → info7.amount < 1000 → unstake 20 7 1000 S0 = none) ∧
    ((0 : Int) < 1000 → 1000 ≤ info7.amount →
      ∃ s1 info1, unstake 20 7 1000 S0 = some (s1,
          [{ token := cfg0.staking_token, src := Party.contract,
             dst := Party.user 7,
             amount := if 20 < info7.lock_start_time + info7.lock_duration then
               1000 - 1000 * 20 / 100 else 1000 }]) ∧
        lookupUser s1.users 7 = some info1 ∧
        info1.amount = info7.amount - 1000 ∧
        info1.lock_duration = info7.lock_duration ∧
        info1.tier_id = (if 0 < info7.amount - 1000 ∧ info7.amount - 1000 <
            (tierOr (lookupTier S0.tiers info7.tier_id)).min_amount then 0
          else info7.tier_id) ∧
        info1.shares = (info7.amount - 1000) *
          (((tierOr (lookupTier S0.tiers info1.tier_id)).reward_multiplier +
            calcBoost info7.lock_duration : Nat) : Int) / 100 ∧
        s1.total_shares = S0.total_shares - (info7.shares - info1.shares)) :=
  unstake_spec S0 cfg0 20 7 1000 info7 rfl (by decide)

theorem accrueGlobal_last_ge (t : Nat) (c : Config) (s : State) :
    ¬ ((accrueGlobal t c s).last_update_time < t) := by
  unfold accrueGlobal
  split
  · simp
  · rename_i h
    exact h

theorem accrueGlobal_noop (t : Nat) (c : Config) (s : State)
    (h : ¬ (s.last_update_time < t)) : accrueGlobal t c s = s := by
  unfold accrueGlobal
  rw [if_neg h]

theorem settleInfo_id (r : Int) (i : UserInfo)
    (hp : i.reward_per_token_paid = r) : settleInfo r i = i := by
  unfold settleInfo
  rw [← hp, sub_self, mul_zero, Int.zero_tdiv, add_zero]

theorem settleUser_noop (u : Nat) (s : State) (i : UserInfo)
    (hl : lookupUser s.users u = some i)
    (hp : i.reward_per_token_paid = s.reward_per_token_stored) :
    settleUser u s = s := by
  unfold settleUser
  rw [hl]
  simp only [Option.getD_some]
  rw [settleInfo_id _ _ hp, writeUser_lookup_self _ _ _ hl]

theorem claim_noop (t : Nat) (s : State) (c : Config) (u : Nat) (i : UserInfo)
    (hc : s.config = some c) (hl : lookupUser s.users u = some i)
    (hp : i.reward_per_token_paid = s.reward_per_token_stored)
    (hlast : ¬ (s.last_update_time < t)) (hr : i.rewards = 0) :
    claim t u false s = some (s, []) := by
  have hag : accrueGlobal t c s = s := accrueGlobal_noop t c s hlast
  simp only [claim, update_reward, hc, hag, settleUser_noop u s i hl hp, hl,
    hr, lt_self_iff_false, if_false]

/-- A tier whose minimum was raised by the admin after the stake below
was recorded (set_tier does not recompute existing shares). -/
def tierRaised : Tier := { min_amount := 1000, reward_multiplier := 200 }

/-- A position recorded when tier 1 still allowed 100 units at
multiplier 200, now below the raised minimum. -/
def infoBelow : UserInfo :=
  { amount := 100, shares := 200, reward_per_token_paid := 0, rewards := 0,
    lock_start_time := 0, lock_duration := 0, tier_id := 1 }

/-- A reachable-shape state for the C9 counterexample. -/
def S9 : State :=
  { config := some cfg0, tiers := [(1, tierRaised)], users := [(7, infoBelow)],
    total_shares := 200, reward_per_token_stored := 0, last_update_time := 0 }

/-- Counterexample to C9 as stated: slashing a negative amount succeeds and
increases the principal from 100 to 110, but the recomputed shares drop
from 200 to 110, because the grown amount is still below the raised tier
minimum and the position is demoted to the base multiplier. -/
theorem slash_negative_shares_cex :
    slash 0 7 (-10) S9 = some
      ({ config := some cfg0, tiers := [(1, tierRaised)],
         users := [(7, { amount := 110, shares := 110,
                         reward_per_token_paid := 0, rewards := 0,
                         lock_start_time := 0, lock_duration := 0,
                         tier_id := 0 })],
         total_shares := 110, reward_per_token_stored := 0,
         last_update_time := 0 }, []) ∧
      infoBelow.amount < 110 ∧ (110 : Int) < infoBelow.shares := by decide

/-- Claim C9 amended: slash performs no positivity check, so for every
amount below or equal to 0, given admin authorization, a configured
system and an existing position with nonnegative amount, the call
succeeds and executes position.amount -= amount; a negative slash amount
therefore increases the principal, and shares are recomputed from the
increased principal (not necessarily increased themselves, since tier
demotion can apply), instead of failing with InvalidAmount. -/
theorem slash_nonpositive_succeeds (s : State) (c : Config) (t u : Nat)
    (amount : Int) (info : UserInfo) (hc : s.config = some c)
    (hu : lookupUser s.users u = some info) (hnn : 0 ≤ info.amount)
    (hamt : amount ≤ 0) :
    ∃ s1 info1, slash t u amount s = some (s1, []) ∧
      lookupUser s1.users u = some info1 ∧
      info1.amount = info.amount - amount ∧
      (amount < 0 → info.amount < info1.amount) ∧
      info1.shares = calcShares info1.amount
        ((tierOr (lookupTier s.tiers info1.tier_id)).reward_multiplier +
          calcBoost info.lock_duration) := by
  simp only [slash, update_reward, hc, settleUser_lookup, accrueGlobal_users,
    hu, Option.getD_some, settleInfo_amount, settleInfo_shares,
    settleInfo_lock_start, settleInfo_lock_duration, settleInfo_tier_id,
    settleInfo_paid, if_neg (not_lt.mpr (le_trans hamt hnn)),
    settleUser_tiers, accrueGlobal_tiers]
  refine ⟨_, _, rfl, lookupUser_writeUser_self _ _ _, ?_, ?_, ?_⟩
  · simp [apply_ite UserInfo.amount]
  · intro hlt
    simp only [apply_ite UserInfo.amount, ite_self]
    omega
  · simp only [apply_ite UserInfo.amount, apply_ite UserInfo.tier_id,
      apply_ite UserInfo.lock_duration, apply_ite UserInfo.shares, ite_self]

/-- Witness for the amended C9: slashing -10 on the crafted state succeeds
and raises the principal to 110. -/
theorem slash_nonpositive_succeeds_witness :
    ∃ s1 info1, slash 0 7 (-10) S9 = some (s1, []) ∧
      lookupUser s1.users 7 = some info1 ∧
      info1.amount = infoBelow.amount - (-10) ∧
      ((-10 : Int) < 0 → infoBelow.amount < info1.amount) ∧
      info1.shares = calcShares info1.amount
        ((tierOr (lookupTier S9.tiers info1.tier_id)).reward_multiplier +
          calcBoost infoBelow.lock_duration) :=
  slash_nonpositive_succeeds S9 cfg0 0 7 (-10) infoBelow rfl (by decide)
    (by decide) (by decide)

/-- Claim C7: with no time advance between them, two consecutive
non-compounding claims pay the settled reward exactly once: the first
transfers the settled rewards balance (when positive) and zeroes it, the
second finds a zero balance, transfers nothing and changes nothing. -/
theorem claim_pays_once (s su : State) (c : Config) (t u : Nat)
    (info1 : UserInfo) (hc : s.config = some c)
    (hur : update_reward t (some u) s = some su)
    (hinfo : lookupUser su.users u = some info1) (hr : 0 ≤ info1.rewards) :
    ∃ s1, claim t u false s = some (s1,
        if 0 < info1.rewards then
          [{ token := c.reward_token, src := Party.contract,
             dst := Party.user u, amount := info1.rewards }]
        else []) ∧
      lookupUser s1.users u = some { info1 with rewards := 0 } ∧
      claim t u false s1 = some (s1, []) := by
  have hsu := Option.some.inj ((update_reward_eq t u s c hc).symm.trans hur)
  subst hsu
  have hpaid : info1.reward_per_token_paid =
      (settleUser u (accrueGlobal t c s)).reward_per_token_stored := by
    have he := Option.some.inj
      ((settleUser_lookup u (accrueGlobal t c s)).symm.trans hinfo)
    rw [← he]
    rfl
  have hlastA : ¬ ((settleUser u (accrueGlobal t c s)).last_update_time < t) := by
    rw [settleUser_last]
    exact accrueGlobal_last_ge t c s
  by_cases hpos : 0 < info1.rewards
  · refine ⟨{ settleUser u (accrueGlobal t c s) with
        users := writeUser (settleUser u (accrueGlobal t c s)).users u
          { info1 with rewards := 0 } }, ?_, lookupUser_writeUser_self _ _ _, ?_⟩
    · simp only [claim, hur, hinfo, if_pos hpos, settleUser_config,
        accrueGlobal_config, hc, Bool.false_eq_true, if_false]
    · exact claim_noop t _ c u { info1 with rewards := 0 }
        ((settleUser_config u (accrueGlobal t c s)).trans
          ((accrueGlobal_config t c s).trans hc))
        (lookupUser_writeUser_self _ _ _) hpaid hlastA rfl
  · have hr0 : info1.rewards = 0 := le_antisymm (not_lt.mp hpos) hr
    have hi1 : ({ info1 with rewards := 0 } : UserInfo) = info1 := by
      rw [← hr0]
    refine ⟨settleUser u (accrueGlobal t c s), ?_, ?_, ?_⟩
    · simp only [claim, hur, hinfo, hr0, lt_self_iff_false, if_false]
    · rw [hi1]
      exact hinfo
    · exact claim_noop t _ c u info1
        ((settleUser_config u (accrueGlobal t c s)).trans
          ((accrueGlobal_config t c s).trans hc)) hinfo hpaid hlastA hr0

/-- The settled position of the scenario state at time 10, used by the C7
witness: 100 reward settled, accumulator 31250000. -/
def infoSettled : UserInfo :=
  { amount := 2000, shares := 3200, reward_per_token_paid := 31250000,
    rewards := 100, lock_start_time := 0, lock_duration := 2592000,
    tier_id := 1 }

/-- The scenario state after running accrual at time 10, used by the C7
witness. -/
def SU10 : State :=
  { config := some cfg0, tiers := [(1, tier1)], users := [(7, infoSettled)],
    total_shares := 3200, reward_per_token_stored := 31250000,
    last_update_time := 10 }

/-- Witness for C7 at the scenario state at time 10: the first claim pays
exactly 100, the second pays nothing. -/
theorem claim_pays_once_witness :
    ∃ s1, claim 10 7 false S0 = some (s1,
        if 0 < infoSettled.rewards then
          [{ token := cfg0.reward_token, src := Party.contract,
             dst := Party.user 7, amount := infoSettled.rewards }]
        else []) ∧
      lookupUser s1.users 7 = some { infoSettled with rewards := 0 } ∧
      claim 10 7 false s1 = some (s1, []) :=
  claim_pays_once S0 SU10 cfg0 10 7 infoSettled rfl (by decide) (by decide)
    (by decide)

/-- Witness for C10 at the scenario state. -/
theorem emergency_reset_no_retroactive_witness :
    ∃ s1 tf, emergency_withdraw 7 S0 = some (s1, tf) ∧
      lookupUser s1.users 7 = some empty_info ∧
      s1.reward_per_token_stored = S0.reward_per_token_stored ∧
      ∀ t2 s2, update_reward t2 (some 7) s1 = some s2 →
        ∃ info2, lookupUser s2.users 7 = some info2 ∧ info2.rewards = 0 ∧
          info2.shares = 0 ∧
          info2.reward_per_token_paid = s2.reward_per_token_stored :=
  emergency_reset_no_retroactive S0 cfg0 7 info7 rfl (by decide) (by decide)

end Staking
